import Mathlib

/-!
# SimpleLoader (`loader.c`): a shallow embedding and its verified properties

The C program opens a 32-bit ELF image, checks its header, walks the
program-header table, maps every `PT_LOAD` segment into an anonymous region,
resolves the entry point inside a mapped region and calls it.

The operating system is modelled by an explicit environment `Env`:
the file's bytes, which `lseek` and `mmap` calls succeed, and what the loaded
code returns.  Every system call the program makes is appended to a trace, and
the set of live mappings is carried in the state.

Machine integers are natural numbers with explicit reduction modulo `2^w`
where the C arithmetic can wrap.
-/

set_option maxRecDepth 20000

namespace Loader

/-- One octet of the file or of memory. -/
abbrev Byte := Fin 256

/-! ## Constants of `loader.h` / `<elf.h>` -/

/-- Modelled from the spec: `loader.h` (which pulls in `<elf.h>`) is not among
the sources; `sizeof(Elf32_Ehdr)`, the fixed ELF32 header size. -/
def SIZEOF_EHDR : Nat := 52

/-- Modelled from the spec: `loader.h` is not among the sources;
`sizeof(Elf32_Phdr)`, the size of one ELF32 program-header structure. -/
def SIZEOF_PHDR : Nat := 32

/-- Modelled from the spec: `loader.h` is not among the sources; index of the
first magic byte in `e_ident`. -/
def EI_MAG0 : Nat := 0

/-- Modelled from the spec: `loader.h` is not among the sources; index of the
second magic byte in `e_ident`. -/
def EI_MAG1 : Nat := 1

/-- Modelled from the spec: `loader.h` is not among the sources; index of the
third magic byte in `e_ident`. -/
def EI_MAG2 : Nat := 2

/-- Modelled from the spec: `loader.h` is not among the sources; index of the
fourth magic byte in `e_ident`. -/
def EI_MAG3 : Nat := 3

/-- Modelled from the spec: `loader.h` is not among the sources; index of the
class byte in `e_ident`. -/
def EI_CLASS : Nat := 4

/-- Modelled from the spec: `loader.h` is not among the sources; index of the
data-encoding byte in `e_ident`. -/
def EI_DATA : Nat := 5

/-- Modelled from the spec: `loader.h` is not among the sources; first byte of
the ELF signature, `0x7f`. -/
def ELFMAG0 : Nat := 0x7f

/-- Modelled from the spec: `loader.h` is not among the sources; second byte
of the ELF signature, the letter E. -/
def ELFMAG1 : Nat := 0x45

/-- Modelled from the spec: `loader.h` is not among the sources; third byte of
the ELF signature, the letter L. -/
def ELFMAG2 : Nat := 0x4c

/-- Modelled from the spec: `loader.h` is not among the sources; fourth byte
of the ELF signature, the letter F. -/
def ELFMAG3 : Nat := 0x46

/-- Modelled from the spec: `loader.h` is not among the sources; the class
value of a 32-bit image. -/
def ELFCLASS32 : Nat := 1

/-- Modelled from the spec: `loader.h` is not among the sources; the
data-encoding value of a little-endian image. -/
def ELFDATA2LSB : Nat := 1

/-- Modelled from the spec: `loader.h` is not among the sources; the type of a
loadable segment. -/
def PT_LOAD : Nat := 1

/-! ## Reading integers out of a byte buffer (little-endian host) -/

/-- The byte at index `i` of a buffer, as a number (0 past the end). -/
def u8 (bs : List Byte) (i : Nat) : Nat := (bs.getD i 0).val

/-- A 16-bit little-endian field at byte offset `i`. -/
def u16 (bs : List Byte) (i : Nat) : Nat := u8 bs i + 256 * u8 bs (i + 1)

/-- A 32-bit little-endian field at byte offset `i`. -/
def u32 (bs : List Byte) (i : Nat) : Nat :=
  u8 bs i + 256 * u8 bs (i + 1) + 65536 * u8 bs (i + 2) + 16777216 * u8 bs (i + 3)

/-- Modelled from the spec: `loader.h` (which pulls in `<elf.h>`) is not among
the sources; the ELF32 file header `Elf32_Ehdr`, with the fields of the ELF
standard. -/
structure Elf32_Ehdr where
  e_ident : List Byte
  e_type : Nat
  e_machine : Nat
  e_version : Nat
  e_entry : Nat
  e_phoff : Nat
  e_shoff : Nat
  e_flags : Nat
  e_ehsize : Nat
  e_phentsize : Nat
  e_phnum : Nat
  e_shentsize : Nat
  e_shnum : Nat
  e_shstrndx : Nat
deriving DecidableEq

/-- Modelled from the spec: `loader.h` (which pulls in `<elf.h>`) is not among
the sources; the ELF32 program header `Elf32_Phdr`, with the fields of the ELF
standard. -/
structure Elf32_Phdr where
  p_type : Nat
  p_offset : Nat
  p_vaddr : Nat
  p_paddr : Nat
  p_filesz : Nat
  p_memsz : Nat
  p_flags : Nat
  p_align : Nat
deriving DecidableEq

/-- Modelled from the spec: the layout of `Elf32_Ehdr` comes from `<elf.h>`,
which is not among the sources. The 52 bytes that
`read(fd, &elf_header, sizeof(Elf32_Ehdr))` stored, seen through the fields of
`Elf32_Ehdr` at their ELF32 offsets. -/
def parseEhdr (bs : List Byte) : Elf32_Ehdr :=
  { e_ident := bs.take 16
    e_type := u16 bs 16
    e_machine := u16 bs 18
    e_version := u32 bs 20
    e_entry := u32 bs 24
    e_phoff := u32 bs 28
    e_shoff := u32 bs 32
    e_flags := u32 bs 36
    e_ehsize := u16 bs 40
    e_phentsize := u16 bs 42
    e_phnum := u16 bs 44
    e_shentsize := u16 bs 46
    e_shnum := u16 bs 48
    e_shstrndx := u16 bs 50 }

/-- Modelled from the spec: the layout of `Elf32_Phdr` comes from `<elf.h>`,
which is not among the sources. The 32 bytes that
`read(fd, &prog_header, sizeof(Elf32_Phdr))` stored, seen through the fields of
`Elf32_Phdr` at their ELF32 offsets. -/
def parsePhdr (bs : List Byte) : Elf32_Phdr :=
  { p_type := u32 bs 0
    p_offset := u32 bs 4
    p_vaddr := u32 bs 8
    p_paddr := u32 bs 12
    p_filesz := u32 bs 16
    p_memsz := u32 bs 20
    p_flags := u32 bs 24
    p_align := u32 bs 28 }

/-! ## The environment and the observable state -/

/-- What the operating system answers to the program.

* `file`: the bytes of the file named on the command line, or `none` when
  `open` returns `-1`;
* `sizeBits`: the width of `size_t` of the build;
* `lseek off`: whether `lseek(fd, off, SEEK_SET)` succeeds;
* `mmap k len`: the base address returned by the `k`-th call of `mmap`
  (counting from 0) for a region of `len` bytes, or `none` for `MAP_FAILED`
  (a real `mmap` fails for `len = 0` and never returns the address of a
  mapping that is still live);
* `start addr`: the value returned by the code called at `addr`, or `none`
  when that code never returns. -/
structure Env where
  file : Option (List Byte)
  sizeBits : Nat
  lseek : Nat → Bool
  mmap : Nat → Nat → Option Nat
  start : Nat → Option Int

/-- The diagnostics the loader writes to standard error. -/
inductive Msg where
  | cantOpenFile
  | errorReadingHeader
  | notValidElf
  | not32Bit
  | wrongEndianness
  | cantReachProgramHeader
  | cantReadProgramHeader
  | cantAllocate
  | cantSeekSegment
  | cantReadSegment
  | cantFindEntryPoint
deriving DecidableEq

/-- The system calls and outputs of a run, in order. -/
inductive Event where
  | openFile (ok : Bool)
  | read (count got : Nat)
  | lseek (off : Nat) (ok : Bool)
  | mmap (len : Nat) (res : Option Nat)
  | munmap (base len : Nat)
  | close
  | stderr (m : Msg)
  | call (addr : Nat)
  | stdout (result : Int)
deriving DecidableEq

/-- How far a run got. -/
inductive Status where
  | running
  | failed (m : Msg)
  | returned (result : Int)
  | noReturn
  | crashed
deriving DecidableEq

/-- An anonymous mapping that is currently live, with its contents. -/
structure Region where
  base : Nat
  len : Nat
  bytes : List Byte
deriving DecidableEq

/-- The program state: the globals `fd`, `virtual_mem` and `phdr`, the local
`entry_seg`, the live mappings, the number of `mmap` calls made so far and the
trace of events. -/
structure St where
  fdValid : Bool
  virtual_mem : Option Nat
  phdr : Option Elf32_Phdr
  entry_seg : Option Nat
  mem : List Region
  nmaps : Nat
  trace : List Event
  status : Status
deriving DecidableEq

/-- The state before `main` runs: `virtual_mem = NULL`, `phdr = NULL`. -/
def St.init : St :=
  { fdValid := false, virtual_mem := none, phdr := none, entry_seg := none,
    mem := [], nmaps := 0, trace := [], status := .running }

/-- The bytes `read(fd, buf, n)` delivers from a regular file positioned at
`pos`: the next `n` bytes, fewer at the end of the file, none past it. The
value returned by `read` is the length of this list; a `read` on an open
regular file is taken never to return `-1`. -/
def readAt (file : List Byte) (pos n : Nat) : List Byte := (file.drop pos).take n

/-- The size of a page of memory on the x86 hosts the loader runs on. -/
def PAGE_SIZE : Nat := 4096

/-- The number of bytes actually mapped by `mmap` for a request of `len`
bytes: `len` rounded up to whole pages. -/
def mappedLen (len : Nat) : Nat := (len + PAGE_SIZE - 1) / PAGE_SIZE * PAGE_SIZE

/-- The region a successful `mmap(NULL, len, ..., MAP_PRIVATE | MAP_ANONYMOUS, 0, 0)`
yields at `base`: `len` bytes, all zero. -/
def zeroRegion (base len : Nat) : Region :=
  { base := base, len := len, bytes := List.replicate len 0 }

/-- The effect of `munmap(base, len)` on the live mappings. -/
def unmap (mem : List Region) (base len : Nat) : List Region :=
  mem.eraseP (fun r => r.base == base && r.len == len)

/-- Storing `data` at the start of the region based at `base`. -/
def store (mem : List Region) (base : Nat) (data : List Byte) : List Region :=
  mem.map (fun r => if r.base = base then { r with bytes := data ++ r.bytes.drop data.length } else r)

/-- The test of lines 122-123, in `uint32_t` arithmetic:
`entry_point >= p_vaddr && entry_point < p_vaddr + p_memsz`. -/
def containsEntry (entry_point p_vaddr p_memsz : Nat) : Bool :=
  decide (entry_point ≥ p_vaddr) && decide (entry_point < (p_vaddr + p_memsz) % 2 ^ 32)

/-- The `uint32_t` difference `entry_point - p_vaddr` of line 124. -/
def entryOffset (entry_point p_vaddr : Nat) : Nat :=
  (entry_point + 2 ^ 32 - p_vaddr) % 2 ^ 32

/-- The file offset handed to `lseek` in iteration `i` (line 77):
`elf_header.e_phoff + (i * sizeof(Elf32_Phdr))`, computed in `size_t`. -/
def phdrOffset (sizeBits : Nat) (eh : Elf32_Ehdr) (i : Nat) : Nat :=
  (eh.e_phoff + (i * SIZEOF_PHDR) % 2 ^ sizeBits) % 2 ^ sizeBits

/-- Lines 91-131: the body of `if (prog_header.p_type == PT_LOAD)`.

The `read` of line 113 asks for `p_filesz` bytes into the fresh region. The
kernel stores bytes only as far as the buffer is mapped, that is, up to the
end of the pages mapped for `p_memsz` (the pages after them are taken to be
unmapped), and returns the number stored: a request that goes past the
mapped pages comes back short and takes the exit of lines 114-119. -/
def loadSegment (env : Env) (file : List Byte) (entry_point : Nat) (ph : Elf32_Phdr)
    (st : St) : St :=
  match env.mmap st.nmaps ph.p_memsz with
  | none =>
    { st with
      nmaps := st.nmaps + 1
      trace := st.trace ++ [.mmap ph.p_memsz none, .stderr .cantAllocate, .close]
      status := .failed .cantAllocate }
  | some segment =>
    let mem1 : List Region := st.mem ++ [zeroRegion segment ph.p_memsz]
    if env.lseek ph.p_offset = false then
      { st with
        nmaps := st.nmaps + 1
        mem := unmap mem1 segment ph.p_memsz
        trace := st.trace ++ [.mmap ph.p_memsz (some segment), .lseek ph.p_offset false,
          .stderr .cantSeekSegment, .munmap segment ph.p_memsz, .close]
        status := .failed .cantSeekSegment }
    else
      let data := readAt file ph.p_offset (min ph.p_filesz (mappedLen ph.p_memsz))
      let mem2 := store mem1 segment data
      if data.length ≠ ph.p_filesz then
        { st with
          nmaps := st.nmaps + 1
          mem := unmap mem2 segment ph.p_memsz
          trace := st.trace ++ [.mmap ph.p_memsz (some segment), .lseek ph.p_offset true,
            .read ph.p_filesz data.length, .stderr .cantReadSegment,
            .munmap segment ph.p_memsz, .close]
          status := .failed .cantReadSegment }
      else
        { st with
          nmaps := st.nmaps + 1
          mem := mem2
          trace := st.trace ++ [.mmap ph.p_memsz (some segment), .lseek ph.p_offset true,
            .read ph.p_filesz data.length]
          entry_seg :=
            if containsEntry entry_point ph.p_vaddr ph.p_memsz then
              some (segment + entryOffset entry_point ph.p_vaddr)
            else st.entry_seg }

/-- Lines 76-131: one iteration of the loop over the program-header table. -/
def loopBody (env : Env) (file : List Byte) (eh : Elf32_Ehdr) (i : Nat) (st : St) : St :=
  let off := phdrOffset env.sizeBits eh i
  if env.lseek off = false then
    { st with
      trace := st.trace ++ [.lseek off false, .stderr .cantReachProgramHeader, .close]
      status := .failed .cantReachProgramHeader }
  else
    let buf := readAt file off SIZEOF_PHDR
    if buf.length ≠ SIZEOF_PHDR then
      { st with
        trace := st.trace ++ [.lseek off true, .read SIZEOF_PHDR buf.length,
          .stderr .cantReadProgramHeader, .close]
        status := .failed .cantReadProgramHeader }
    else
      let prog_header := parsePhdr buf
      let st1 : St :=
        { st with trace := st.trace ++ [.lseek off true, .read SIZEOF_PHDR buf.length] }
      if prog_header.p_type = PT_LOAD then
        loadSegment env file eh.e_entry prog_header st1
      else st1

/-- Line 75: `for (int i = 0; i < elf_header.e_phnum; i++)`, with `n` the
number of iterations still to run; a `return` inside the body ends the loop. -/
def phLoop (env : Env) (file : List Byte) (eh : Elf32_Ehdr) : Nat → Nat → St → St
  | 0, _, st => st
  | n + 1, i, st =>
    let st1 := loopBody env file eh i st
    if st1.status = .running then phLoop env file eh n (i + 1) st1 else st1

/-- Lines 134-145: the check of `entry_seg` and the call of `_start`. -/
def launch (env : Env) (st : St) : St :=
  match st.entry_seg with
  | none =>
    { st with
      trace := st.trace ++ [.stderr .cantFindEntryPoint, .close]
      status := .failed .cantFindEntryPoint }
  | some addr =>
    match env.start addr with
    | none => { st with trace := st.trace ++ [.call addr], status := .noReturn }
    | some result =>
      { st with trace := st.trace ++ [.call addr, .stdout result], status := .returned result }

/-- The function `load_and_run_elf` of the source. -/
def load_and_run_elf (env : Env) (st : St) : St :=
  match env.file with
  | none =>
    { st with
      fdValid := false
      trace := st.trace ++ [.openFile false, .stderr .cantOpenFile]
      status := .failed .cantOpenFile }
  | some file =>
    let buf := readAt file 0 SIZEOF_EHDR
    let st0 : St := { st with
      fdValid := true
      trace := st.trace ++ [.openFile true, .read SIZEOF_EHDR buf.length] }
    if buf.length ≠ SIZEOF_EHDR then
      { st0 with
        trace := st0.trace ++ [.stderr .errorReadingHeader, .close]
        status := .failed .errorReadingHeader }
    else
      let elf_header := parseEhdr buf
      if u8 elf_header.e_ident EI_MAG0 ≠ ELFMAG0 ∨ u8 elf_header.e_ident EI_MAG1 ≠ ELFMAG1 ∨
          u8 elf_header.e_ident EI_MAG2 ≠ ELFMAG2 ∨ u8 elf_header.e_ident EI_MAG3 ≠ ELFMAG3 then
        { st0 with
          trace := st0.trace ++ [.stderr .notValidElf, .close]
          status := .failed .notValidElf }
      else if u8 elf_header.e_ident EI_CLASS ≠ ELFCLASS32 then
        { st0 with
          trace := st0.trace ++ [.stderr .not32Bit, .close]
          status := .failed .not32Bit }
      else if u8 elf_header.e_ident EI_DATA ≠ ELFDATA2LSB then
        { st0 with
          trace := st0.trace ++ [.stderr .wrongEndianness, .close]
          status := .failed .wrongEndianness }
      else
        let st1 := phLoop env file elf_header elf_header.e_phnum 0 { st0 with entry_seg := none }
        if st1.status = .running then launch env st1 else st1

/-- The function `loader_cleanup` of the source: `munmap(virtual_mem,
phdr->p_memsz)` when `virtual_mem` is not `NULL`, `close(fd)` when `fd` is
not `-1`. -/
def loader_cleanup (st : St) : St :=
  let st1 : St :=
    match st.virtual_mem with
    | none => st
    | some a =>
      match st.phdr with
      | none => { st with status := .crashed }
      | some p =>
        { st with mem := unmap st.mem a p.p_memsz, trace := st.trace ++ [.munmap a p.p_memsz] }
  if st1.status = .crashed then st1
  else if st1.fdValid then { st1 with trace := st1.trace ++ [.close] }
  else st1

/-- The function `main` of the source once the argument count is right:
`load_and_run_elf` followed by `loader_cleanup`; when the loaded code never
returns, the cleanup is never reached. -/
def main (env : Env) : St :=
  let st := load_and_run_elf env St.init
  if st.status = .noReturn then st else loader_cleanup st

/-! ## Observations on a trace -/

/-- Number of calls of `mmap` in a trace, failed ones included. -/
def mmapCalls (t : List Event) : Nat :=
  t.countP (fun e => match e with | .mmap _ _ => true | _ => false)

/-- Number of regions `mmap` reserved in a trace. -/
def reserved (t : List Event) : Nat :=
  t.countP (fun e => match e with | .mmap _ (some _) => true | _ => false)

/-- Number of calls of `munmap` in a trace. -/
def released (t : List Event) : Nat :=
  t.countP (fun e => match e with | .munmap _ _ => true | _ => false)

/-- Number of transfers of control into loaded code in a trace. -/
def calls (t : List Event) : Nat :=
  t.countP (fun e => match e with | .call _ => true | _ => false)

/-- Number of `read` calls in a trace. -/
def reads (t : List Event) : Nat :=
  t.countP (fun e => match e with | .read _ _ => true | _ => false)

/-- The offsets of the `lseek` calls in a trace, in order. -/
def seeks (t : List Event) : List Nat :=
  t.filterMap (fun e => match e with | .lseek off _ => some off | _ => none)

/-! ## Predicates on files -/

/-- The four bytes of the ELF signature. -/
def ELFMAG : List Byte := [0x7f, 0x45, 0x4c, 0x46]

/-- The header `load_and_run_elf` works with once the first `read` delivered
all 52 bytes. -/
def ehdrOf (file : List Byte) : Elf32_Ehdr := parseEhdr (readAt file 0 SIZEOF_EHDR)

/-- A file that passes the four header checks of lines 38-66: a full header,
the signature, the 32-bit class and the little-endian encoding. -/
def validHeader (file : List Byte) : Prop :=
  SIZEOF_EHDR ≤ file.length ∧ file.take 4 = ELFMAG ∧ u8 file EI_CLASS = ELFCLASS32 ∧
    u8 file EI_DATA = ELFDATA2LSB

instance (file : List Byte) : Decidable (validHeader file) := by
  unfold validHeader; infer_instance

/-! ## Concrete images used as test inputs -/

/-- The 16-bit value `n` as two little-endian bytes. -/
def le16 (n : Nat) : List Byte := [Fin.ofNat (n % 256), Fin.ofNat (n / 256 % 256)]

/-- The 32-bit value `n` as four little-endian bytes. -/
def le32 (n : Nat) : List Byte :=
  [Fin.ofNat (n % 256), Fin.ofNat (n / 256 % 256), Fin.ofNat (n / 65536 % 256),
    Fin.ofNat (n / 16777216 % 256)]

/-- A 52-byte ELF header with the given class and data bytes, entry point,
program-header offset, entry size and entry count. -/
def mkEhdr (cls data entry phoff phentsize phnum : Nat) : List Byte :=
  [0x7f, 0x45, 0x4c, 0x46, Fin.ofNat cls, Fin.ofNat data, 1, 0, 0, 0, 0, 0, 0, 0, 0, 0] ++
    le16 2 ++ le16 3 ++ le32 1 ++ le32 entry ++ le32 phoff ++ le32 0 ++ le32 0 ++
    le16 52 ++ le16 phentsize ++ le16 phnum ++ le16 40 ++ le16 0 ++ le16 0

/-- A 32-byte program header. -/
def mkPhdr (type offset vaddr filesz memsz : Nat) : List Byte :=
  le32 type ++ le32 offset ++ le32 vaddr ++ le32 vaddr ++ le32 filesz ++ le32 memsz ++
    le32 7 ++ le32 4096

/-- An environment in which the file opens, every `lseek` succeeds, the
`k`-th `mmap` returns `4096 * (k + 1)` and the loaded code returns 42. -/
def okEnv (file : List Byte) : Env :=
  { file := some file, sizeBits := 32, lseek := fun _ => true,
    mmap := fun k _ => some (4096 * (k + 1)), start := fun _ => some 42 }

/-- A four-byte file that starts with the letters M and Z. -/
def shortNonElf : List Byte := [0x4d, 0x5a, 0x90, 0x00]

/-- A 52-byte file that starts with the letters M and Z. -/
def longNonElf : List Byte := [0x4d, 0x5a, 0x90, 0x00] ++ List.replicate 48 0

/-- A 52-byte header with the ELF signature, class byte 2 (64-bit) and data
byte 2 (big-endian). -/
def elf64be : List Byte := mkEhdr 2 2 0x8000 52 32 0

/-- A 52-byte header with the ELF signature, class byte 1 (32-bit) and data
byte 2 (big-endian). -/
def elf32be : List Byte := mkEhdr 1 2 0x8000 52 32 0

/-- A 132-byte image whose header records a program-header entry size of 40
and two entries, both of type `PT_NULL`, laid out 40 bytes apart. -/
def wideEntries : List Byte :=
  mkEhdr 1 1 0x8000 52 40 2 ++ (mkPhdr 0 0 0 0 0 ++ List.replicate 8 0) ++
    (mkPhdr 0 0 0 0 0 ++ List.replicate 8 0)

/-- An image with one `PT_LOAD` segment of 16 bytes at virtual address
`0xFFFFFFF0`, which ends exactly at `2^32`, and entry point `0xFFFFFFF4`. -/
def topSegment : List Byte :=
  mkEhdr 1 1 0xFFFFFFF4 52 32 1 ++ mkPhdr 1 84 0xFFFFFFF0 4 16 ++ [0xb8, 0x2a, 0xc3, 0x90]

/-- A one-segment image: entry point `0x8001` inside the `PT_LOAD` segment at
`0x8000` with 7 bytes in the file and 8 bytes in memory. The bytes are the
i386 code `nop; mov eax, 42; ret`, entered after the `nop`. -/
def oneSegment : List Byte :=
  mkEhdr 1 1 0x8001 52 32 1 ++ mkPhdr 1 84 0x8000 7 8 ++
    [0x90, 0xb8, 0x2a, 0x00, 0x00, 0x00, 0xc3]

/-- A text-and-data image: two `PT_LOAD` segments, the first at `0x8000` with
the code `nop; mov eax, 42; ret` and the entry point `0x8001`, the second at
`0x9000` with two bytes of data in the file and six bytes in memory. -/
def textData : List Byte :=
  mkEhdr 1 1 0x8001 52 32 2 ++ mkPhdr 1 116 0x8000 7 8 ++ mkPhdr 1 123 0x9000 2 6 ++
    [0x90, 0xb8, 0x2a, 0x00, 0x00, 0x00, 0xc3] ++ [0x11, 0x22]

/-- A two-segment image at the top of the address space, entry point
`0xFFFFFFF4`: the first `PT_LOAD` segment is `[0xFFFFFFE0, 0xFFFFFFF8)`, the
second is `[0xFFFFFFF0, 0x100000000)`, so both ranges contain the entry point.
The first segment holds `push 42; pop eax; ret` at offset `0x14`, the second
`push 7; pop eax; ret` at offset 4. -/
def wrapLater : List Byte :=
  mkEhdr 1 1 0xFFFFFFF4 52 32 2 ++ mkPhdr 1 116 0xFFFFFFE0 24 24 ++
    mkPhdr 1 140 0xFFFFFFF0 8 16 ++
    (List.replicate 20 0x90 ++ [0x6a, 0x2a, 0x58, 0xc3]) ++
    [0x90, 0x90, 0x90, 0x90, 0x6a, 0x07, 0x58, 0xc3]

/-- A two-segment image in which both `PT_LOAD` segments, at `0x8000` and at
`0x8002`, contain the entry point `0x8004`. The second segment holds
`mov eax, 42; ret` at offset 2, the first `push 7; pop eax; ret` at offset 4. -/
def twoMatches : List Byte :=
  mkEhdr 1 1 0x8004 52 32 2 ++ mkPhdr 1 116 0x8000 8 8 ++ mkPhdr 1 124 0x8002 8 8 ++
    [0x90, 0x90, 0x90, 0x90, 0x6a, 0x07, 0x58, 0xc3] ++
    [0x90, 0x90, 0xb8, 0x2a, 0x00, 0x00, 0x00, 0xc3]

/-- A one-segment image whose entry point `0x9000` lies outside the `PT_LOAD`
segment at `0x8000`. -/
def entryOutside : List Byte :=
  mkEhdr 1 1 0x9000 52 32 1 ++ mkPhdr 1 84 0x8000 4 8 ++ [0xb8, 0x2a, 0xc3, 0x90]

/-- An environment like `okEnv` in which the second call of `mmap` fails. -/
def secondMmapFails (file : List Byte) : Env :=
  { file := some file, sizeBits := 32, lseek := fun _ => true,
    mmap := fun k _ => if k = 0 then some 4096 else none, start := fun _ => some 42 }

/-! ## Vocabulary for the statements about the loop -/

/-- The state in which the loop over the program headers starts: the file is
open and the header has been read. -/
def afterHeader : St :=
  { St.init with fdValid := true, trace := [.openFile true, .read SIZEOF_EHDR SIZEOF_EHDR] }

/-- The program header the loop works on in iteration `i`. -/
def phdrAt (env : Env) (file : List Byte) (eh : Elf32_Ehdr) (i : Nat) : Elf32_Phdr :=
  parsePhdr (readAt file (phdrOffset env.sizeBits eh i) SIZEOF_PHDR)

/-- Entry `i` of the table can be read: the `lseek` of line 77 succeeds and
the `read` of line 84 delivers 32 bytes. -/
def readable (env : Env) (file : List Byte) (eh : Elf32_Ehdr) (i : Nat) : Prop :=
  env.lseek (phdrOffset env.sizeBits eh i) = true ∧
    (readAt file (phdrOffset env.sizeBits eh i) SIZEOF_PHDR).length = SIZEOF_PHDR

instance (env : Env) (file : List Byte) (eh : Elf32_Ehdr) (i : Nat) :
    Decidable (readable env file eh i) := by
  unfold readable; infer_instance

/-- The number of `PT_LOAD` entries among the first `i` entries of the table:
the number of `mmap` calls made before iteration `i`. -/
def loadsBefore (env : Env) (file : List Byte) (eh : Elf32_Ehdr) : Nat → Nat
  | 0 => 0
  | i + 1 => loadsBefore env file eh i + if (phdrAt env file eh i).p_type = PT_LOAD then 1 else 0

/-- Entry `i` is processed without error: it can be read and, when it is a
`PT_LOAD` entry, its `mmap`, its `lseek` and its `read` succeed. -/
def entryLoads (env : Env) (file : List Byte) (eh : Elf32_Ehdr) (i : Nat) : Prop :=
  readable env file eh i ∧
    ((phdrAt env file eh i).p_type = PT_LOAD →
      (env.mmap (loadsBefore env file eh i) (phdrAt env file eh i).p_memsz).isSome = true ∧
      env.lseek (phdrAt env file eh i).p_offset = true ∧
      (readAt file (phdrAt env file eh i).p_offset
        (min (phdrAt env file eh i).p_filesz (mappedLen (phdrAt env file eh i).p_memsz))).length =
        (phdrAt env file eh i).p_filesz)

instance (env : Env) (file : List Byte) (eh : Elf32_Ehdr) (i : Nat) :
    Decidable (entryLoads env file eh i) := by
  unfold entryLoads; infer_instance

/-- Entry `i` is a `PT_LOAD` entry for which the test of lines 122-123
succeeds. -/
def isMatch (env : Env) (file : List Byte) (eh : Elf32_Ehdr) (i : Nat) : Prop :=
  (phdrAt env file eh i).p_type = PT_LOAD ∧
    containsEntry eh.e_entry (phdrAt env file eh i).p_vaddr (phdrAt env file eh i).p_memsz = true

instance (env : Env) (file : List Byte) (eh : Elf32_Ehdr) (i : Nat) :
    Decidable (isMatch env file eh i) := by
  unfold isMatch; infer_instance

/-- The value of `entry_seg` after the first `i` iterations of a loop in which
every entry was processed without error. -/
def resolved (env : Env) (file : List Byte) (eh : Elf32_Ehdr) : Nat → Option Nat
  | 0 => none
  | i + 1 =>
    if (phdrAt env file eh i).p_type = PT_LOAD ∧
        containsEntry eh.e_entry (phdrAt env file eh i).p_vaddr
          (phdrAt env file eh i).p_memsz = true then
      (env.mmap (loadsBefore env file eh i) (phdrAt env file eh i).p_memsz).map
        (fun segment => segment + entryOffset eh.e_entry (phdrAt env file eh i).p_vaddr)
    else resolved env file eh i

/-! ## Facts about buffers -/

theorem u8_take (bs : List Byte) (n i : Nat) (h : i < n) : u8 (bs.take n) i = u8 bs i := by
  simp [u8, List.getElem?_take_of_lt h]

theorem readAt_length (file : List Byte) (pos n : Nat) :
    (readAt file pos n).length = min n (file.length - pos) := by
  simp [readAt]

theorem readAt_header_length (file : List Byte) (h : SIZEOF_EHDR ≤ file.length) :
    (readAt file 0 SIZEOF_EHDR).length = SIZEOF_EHDR := by
  rw [readAt_length]; omega

theorem u8_ident (file : List Byte) (i : Nat) (h : i < 16) :
    u8 (ehdrOf file).e_ident i = u8 file i := by
  have h52 : i < SIZEOF_EHDR := by unfold SIZEOF_EHDR; omega
  simp only [ehdrOf, parseEhdr, readAt, List.drop_zero]
  rw [u8_take _ _ _ h, u8_take _ _ _ h52]

theorem take_four_eq (bs : List Byte) (h : 4 ≤ bs.length) :
    bs.take 4 = ELFMAG ↔
      u8 bs 0 = ELFMAG0 ∧ u8 bs 1 = ELFMAG1 ∧ u8 bs 2 = ELFMAG2 ∧ u8 bs 3 = ELFMAG3 := by
  match bs, h with
  | a :: b :: c :: d :: rest, _ =>
    simp [u8, ELFMAG, ELFMAG0, ELFMAG1, ELFMAG2, ELFMAG3, Fin.ext_iff]
    exact Iff.rfl

/-- The magic test of lines 45-48 fails exactly on the files whose first four
bytes are the ELF signature. -/
theorem magic_test (file : List Byte) (h : SIZEOF_EHDR ≤ file.length) :
    (u8 (ehdrOf file).e_ident EI_MAG0 ≠ ELFMAG0 ∨ u8 (ehdrOf file).e_ident EI_MAG1 ≠ ELFMAG1 ∨
      u8 (ehdrOf file).e_ident EI_MAG2 ≠ ELFMAG2 ∨ u8 (ehdrOf file).e_ident EI_MAG3 ≠ ELFMAG3) ↔
      file.take 4 ≠ ELFMAG := by
  have h4 : 4 ≤ file.length := by unfold SIZEOF_EHDR at h; omega
  simp only [ne_eq, take_four_eq file h4, EI_MAG0, EI_MAG1, EI_MAG2, EI_MAG3]
  rw [u8_ident file 0 (by omega), u8_ident file 1 (by omega), u8_ident file 2 (by omega),
    u8_ident file 3 (by omega)]
  tauto

/-! ## The header checks (lines 35-66) -/

/-- The run on a file that cannot deliver a full header. -/
theorem run_short (env : Env) (file : List Byte) (hfile : env.file = some file)
    (hlen : file.length < SIZEOF_EHDR) :
    load_and_run_elf env St.init =
      { St.init with
        fdValid := true
        trace := [.openFile true, .read SIZEOF_EHDR file.length,
          .stderr .errorReadingHeader, .close]
        status := .failed .errorReadingHeader } := by
  have hl : (readAt file 0 SIZEOF_EHDR).length = file.length := by
    rw [readAt_length]; omega
  have hne : file.length ≠ SIZEOF_EHDR := by omega
  simp [load_and_run_elf, hfile, hl, hne, St.init]

/-- The run on a file with a full header whose first four bytes are not the
signature. -/
theorem run_bad_magic (env : Env) (file : List Byte) (hfile : env.file = some file)
    (hlen : SIZEOF_EHDR ≤ file.length) (hmag : file.take 4 ≠ ELFMAG) :
    load_and_run_elf env St.init =
      { St.init with
        fdValid := true
        trace := [.openFile true, .read SIZEOF_EHDR SIZEOF_EHDR, .stderr .notValidElf, .close]
        status := .failed .notValidElf } := by
  have hl := readAt_header_length file hlen
  have hm := (magic_test file hlen).mpr hmag
  unfold ehdrOf at hm
  simp only [load_and_run_elf, hfile, hl]
  simp [hm, St.init]

/-- C1: for every file shorter than the 52-byte ELF32 header, the loader fails
with the truncated-header diagnostic, never calls `mmap`, holds no mapping and
never transfers control into the file. -/
theorem truncated_header_fails (env : Env) (file : List Byte) (hfile : env.file = some file)
    (hlen : file.length < SIZEOF_EHDR) :
    (load_and_run_elf env St.init).status = .failed .errorReadingHeader ∧
      (load_and_run_elf env St.init).trace =
        [.openFile true, .read SIZEOF_EHDR file.length, .stderr .errorReadingHeader, .close] ∧
      mmapCalls (load_and_run_elf env St.init).trace = 0 ∧
      (load_and_run_elf env St.init).mem = [] ∧
      calls (load_and_run_elf env St.init).trace = 0 ∧
      mmapCalls (main env).trace = 0 ∧ calls (main env).trace = 0 := by
  have hmain : main env = loader_cleanup (load_and_run_elf env St.init) := by
    simp [main, run_short env file hfile hlen]
  rw [hmain, run_short env file hfile hlen]
  simp [St.init, mmapCalls, calls, loader_cleanup]

theorem truncated_header_fails_witness :
    (load_and_run_elf (okEnv shortNonElf) St.init).status = .failed .errorReadingHeader ∧
      mmapCalls (main (okEnv shortNonElf)).trace = 0 :=
  have h := truncated_header_fails (okEnv shortNonElf) shortNonElf rfl (by decide)
  ⟨h.1, h.2.2.2.2.2.1⟩

/-- C2 as stated fails: a four-byte file whose bytes are not the signature is
rejected with the truncated-header diagnostic, not with `notValidElf`. -/
theorem not_elf_short_file_counterexample :
    shortNonElf.take 4 ≠ ELFMAG ∧
      (load_and_run_elf (okEnv shortNonElf) St.init).status = .failed .errorReadingHeader ∧
      (load_and_run_elf (okEnv shortNonElf) St.init).status ≠ .failed .notValidElf := by
  decide

/-- C2 (amended): for every file of at least 52 bytes whose first four bytes
differ from the ELF signature, whatever the rest of its contents, the loader
fails with the not-a-valid-ELF diagnostic. -/
theorem not_elf_fails (env : Env) (file : List Byte) (hfile : env.file = some file)
    (hlen : SIZEOF_EHDR ≤ file.length) (hmag : file.take 4 ≠ ELFMAG) :
    (load_and_run_elf env St.init).status = .failed .notValidElf ∧
      (load_and_run_elf env St.init).trace =
        [.openFile true, .read SIZEOF_EHDR SIZEOF_EHDR, .stderr .notValidElf, .close] := by
  rw [run_bad_magic env file hfile hlen hmag]
  simp

theorem not_elf_fails_witness :
    (load_and_run_elf (okEnv longNonElf) St.init).status = .failed .notValidElf :=
  (not_elf_fails (okEnv longNonElf) longNonElf rfl (by decide) (by decide)).1

/-- The run on a file that passes the four header checks: the loop over the
program headers, then the launch. -/
theorem run_valid (env : Env) (file : List Byte) (hfile : env.file = some file)
    (hv : validHeader file) :
    load_and_run_elf env St.init =
      if (phLoop env file (ehdrOf file) (ehdrOf file).e_phnum 0 afterHeader).status = .running
      then launch env (phLoop env file (ehdrOf file) (ehdrOf file).e_phnum 0 afterHeader)
      else phLoop env file (ehdrOf file) (ehdrOf file).e_phnum 0 afterHeader := by
  obtain ⟨hlen, hmag, hcls, hdat⟩ := hv
  have hl := readAt_header_length file hlen
  have hm : ¬ (u8 (ehdrOf file).e_ident EI_MAG0 ≠ ELFMAG0 ∨
      u8 (ehdrOf file).e_ident EI_MAG1 ≠ ELFMAG1 ∨
      u8 (ehdrOf file).e_ident EI_MAG2 ≠ ELFMAG2 ∨ u8 (ehdrOf file).e_ident EI_MAG3 ≠ ELFMAG3) := by
    rw [magic_test file hlen]; simp [hmag]
  have hc : u8 (ehdrOf file).e_ident EI_CLASS = ELFCLASS32 := by
    rw [EI_CLASS, u8_ident file 4 (by omega)]; exact hcls
  have hd : u8 (ehdrOf file).e_ident EI_DATA = ELFDATA2LSB := by
    rw [EI_DATA, u8_ident file 5 (by omega)]; exact hdat
  unfold ehdrOf at hm hc hd
  simp only [load_and_run_elf, hfile, hl]
  simp only [hm, hc, hd, ne_eq, not_true_eq_false, if_false]
  rfl

/-- The run on a file with a full header and the signature whose class byte
is not `ELFCLASS32`. -/
theorem run_bad_class (env : Env) (file : List Byte) (hfile : env.file = some file)
    (hlen : SIZEOF_EHDR ≤ file.length) (hmag : file.take 4 = ELFMAG)
    (hcls : u8 file EI_CLASS ≠ ELFCLASS32) :
    load_and_run_elf env St.init =
      { St.init with
        fdValid := true
        trace := [.openFile true, .read SIZEOF_EHDR SIZEOF_EHDR, .stderr .not32Bit, .close]
        status := .failed .not32Bit } := by
  have hl := readAt_header_length file hlen
  have hm : ¬ (u8 (ehdrOf file).e_ident EI_MAG0 ≠ ELFMAG0 ∨
      u8 (ehdrOf file).e_ident EI_MAG1 ≠ ELFMAG1 ∨
      u8 (ehdrOf file).e_ident EI_MAG2 ≠ ELFMAG2 ∨ u8 (ehdrOf file).e_ident EI_MAG3 ≠ ELFMAG3) := by
    rw [magic_test file hlen]; simp [hmag]
  have hc : u8 (ehdrOf file).e_ident EI_CLASS ≠ ELFCLASS32 := by
    rw [EI_CLASS, u8_ident file 4 (by omega)]; exact hcls
  unfold ehdrOf at hm hc
  simp only [load_and_run_elf, hfile, hl]
  simp [hm, hc, St.init]

/-- The run on a file with a full header, the signature and the 32-bit class
whose data-encoding byte is not `ELFDATA2LSB`. -/
theorem run_bad_data (env : Env) (file : List Byte) (hfile : env.file = some file)
    (hlen : SIZEOF_EHDR ≤ file.length) (hmag : file.take 4 = ELFMAG)
    (hcls : u8 file EI_CLASS = ELFCLASS32) (hdat : u8 file EI_DATA ≠ ELFDATA2LSB) :
    load_and_run_elf env St.init =
      { St.init with
        fdValid := true
        trace := [.openFile true, .read SIZEOF_EHDR SIZEOF_EHDR, .stderr .wrongEndianness,
          .close]
        status := .failed .wrongEndianness } := by
  have hl := readAt_header_length file hlen
  have hm : ¬ (u8 (ehdrOf file).e_ident EI_MAG0 ≠ ELFMAG0 ∨
      u8 (ehdrOf file).e_ident EI_MAG1 ≠ ELFMAG1 ∨
      u8 (ehdrOf file).e_ident EI_MAG2 ≠ ELFMAG2 ∨ u8 (ehdrOf file).e_ident EI_MAG3 ≠ ELFMAG3) := by
    rw [magic_test file hlen]; simp [hmag]
  have hc : u8 (ehdrOf file).e_ident EI_CLASS = ELFCLASS32 := by
    rw [EI_CLASS, u8_ident file 4 (by omega)]; exact hcls
  have hd : u8 (ehdrOf file).e_ident EI_DATA ≠ ELFDATA2LSB := by
    rw [EI_DATA, u8_ident file 5 (by omega)]; exact hdat
  unfold ehdrOf at hm hc hd
  simp only [load_and_run_elf, hfile, hl]
  simp [hm, hc, hd, St.init]

/-- C3 as stated fails: on a full header with the signature, class byte 2 and
data byte 2, the data-encoding byte is not `ELFDATA2LSB`, yet the loader fails
with the not-32-bit diagnostic and not with the wrong-endianness one. -/
theorem class_checked_before_data_counterexample :
    SIZEOF_EHDR ≤ elf64be.length ∧ elf64be.take 4 = ELFMAG ∧
      u8 elf64be EI_DATA ≠ ELFDATA2LSB ∧
      (load_and_run_elf (okEnv elf64be) St.init).status = .failed .not32Bit ∧
      (load_and_run_elf (okEnv elf64be) St.init).status ≠ .failed .wrongEndianness := by
  decide

/-- C3 (amended): for every file with a full header and the signature, the
loader fails with the not-32-bit diagnostic if the class byte is not
`ELFCLASS32`, and fails with the wrong-endianness diagnostic if the class byte
is `ELFCLASS32` and the data-encoding byte is not `ELFDATA2LSB`; in both
failures the only calls made are `open`, the `read` of the header and
`close`: no `mmap`, no `lseek` and no `read` of a program header. -/
theorem class_and_data_checks (env : Env) (file : List Byte) (hfile : env.file = some file)
    (hlen : SIZEOF_EHDR ≤ file.length) (hmag : file.take 4 = ELFMAG) :
    (u8 file EI_CLASS ≠ ELFCLASS32 →
      (load_and_run_elf env St.init).status = .failed .not32Bit ∧
      (load_and_run_elf env St.init).trace =
        [.openFile true, .read SIZEOF_EHDR SIZEOF_EHDR, .stderr .not32Bit, .close] ∧
      mmapCalls (load_and_run_elf env St.init).trace = 0 ∧
      seeks (load_and_run_elf env St.init).trace = [] ∧
      reads (load_and_run_elf env St.init).trace = 1) ∧
    (u8 file EI_CLASS = ELFCLASS32 → u8 file EI_DATA ≠ ELFDATA2LSB →
      (load_and_run_elf env St.init).status = .failed .wrongEndianness ∧
      (load_and_run_elf env St.init).trace =
        [.openFile true, .read SIZEOF_EHDR SIZEOF_EHDR, .stderr .wrongEndianness, .close] ∧
      mmapCalls (load_and_run_elf env St.init).trace = 0 ∧
      seeks (load_and_run_elf env St.init).trace = [] ∧
      reads (load_and_run_elf env St.init).trace = 1) := by
  constructor
  · intro hcls
    rw [run_bad_class env file hfile hlen hmag hcls]
    simp [mmapCalls, seeks, reads]
  · intro hcls hdat
    rw [run_bad_data env file hfile hlen hmag hcls hdat]
    simp [mmapCalls, seeks, reads]

theorem class_and_data_checks_witness :
    (load_and_run_elf (okEnv elf64be) St.init).status = .failed .not32Bit ∧
      (load_and_run_elf (okEnv elf32be) St.init).status = .failed .wrongEndianness :=
  ⟨((class_and_data_checks (okEnv elf64be) elf64be rfl (by decide) (by decide)).1
      (by decide)).1,
   ((class_and_data_checks (okEnv elf32be) elf32be rfl (by decide) (by decide)).2
      (by decide) (by decide)).1⟩

/-! ## The containment test (lines 121-130) -/

/-- The test of lines 122-123 succeeds exactly when the entry point lies in
the integer range and the sum `p_vaddr + p_memsz` stays below `2^32`. -/
theorem containsEntry_iff (e v m : Nat) (he : e < 2 ^ 32) (hm : m < 2 ^ 32) :
    containsEntry e v m = true ↔ v ≤ e ∧ e < v + m ∧ v + m < 2 ^ 32 := by
  simp only [containsEntry, Bool.and_eq_true, decide_eq_true_eq, ge_iff_le]
  norm_num at he hm ⊢
  omega

/-- C9, evaluated where it fails: with `p_vaddr = 0xFFFFFFF0`, `p_memsz = 16`
and `e_entry = 0xFFFFFFF4` the entry point lies in the integer range
`[p_vaddr, p_vaddr + p_memsz)`, yet the test of lines 122-123 is false and the
loader reports that it could not find the entry point. -/
theorem containsEntry_wraps_at_top :
    (0xFFFFFFF0 ≤ 0xFFFFFFF4 ∧ 0xFFFFFFF4 < 0xFFFFFFF0 + 16) ∧
      containsEntry 0xFFFFFFF4 0xFFFFFFF0 16 = false ∧
      (ehdrOf topSegment).e_entry = 0xFFFFFFF4 ∧
      (load_and_run_elf (okEnv topSegment) St.init).status = .failed .cantFindEntryPoint := by
  decide

/-- C10: for all 32-bit `e_entry`, `p_vaddr` and `p_memsz`, whenever the test
of lines 122-123 succeeds, the offset `e_entry - p_vaddr` computed on line 124
is the true difference, is strictly below `p_memsz`, and the resolved address
`segment + (e_entry - p_vaddr)` lies inside the `p_memsz` bytes mapped at
`segment`. -/
theorem entry_offset_within_region (e v m segment : Nat) (he : e < 2 ^ 32)
    (hm : m < 2 ^ 32) (h : containsEntry e v m = true) :
    entryOffset e v = e - v ∧ entryOffset e v < m ∧
      segment ≤ segment + entryOffset e v ∧ segment + entryOffset e v < segment + m := by
  rw [containsEntry_iff e v m he hm] at h
  have hoff : entryOffset e v = e - v := by
    unfold entryOffset
    norm_num at he hm ⊢
    omega
  rw [hoff]
  omega

theorem entry_offset_within_region_witness :
    entryOffset 0x8004 0x8000 = 4 ∧ entryOffset 0x8004 0x8000 < 8 ∧
      4096 ≤ 4096 + entryOffset 0x8004 0x8000 ∧ 4096 + entryOffset 0x8004 0x8000 < 4096 + 8 :=
  entry_offset_within_region 0x8004 0x8000 8 4096 (by decide) (by decide) (by decide)

/-! ## The loop over the program headers (lines 75-132) -/

theorem loopBody_skip (env : Env) (file : List Byte) (eh : Elf32_Ehdr) (i : Nat) (st : St)
    (hr : readable env file eh i) (hne : (phdrAt env file eh i).p_type ≠ PT_LOAD) :
    loopBody env file eh i st =
      { st with trace := st.trace ++
          [.lseek (phdrOffset env.sizeBits eh i) true, .read SIZEOF_PHDR SIZEOF_PHDR] } := by
  obtain ⟨hs, hl⟩ := hr
  unfold phdrAt at hne
  simp [loopBody, hs, hl, hne]

theorem loopBody_load (env : Env) (file : List Byte) (eh : Elf32_Ehdr) (i : Nat) (st : St)
    (hr : readable env file eh i) (hty : (phdrAt env file eh i).p_type = PT_LOAD)
    (segment : Nat)
    (hmap : env.mmap st.nmaps (phdrAt env file eh i).p_memsz = some segment)
    (hseek : env.lseek (phdrAt env file eh i).p_offset = true)
    (hread : (readAt file (phdrAt env file eh i).p_offset
      (min (phdrAt env file eh i).p_filesz (mappedLen (phdrAt env file eh i).p_memsz))).length =
        (phdrAt env file eh i).p_filesz) :
    loopBody env file eh i st =
      { st with
        nmaps := st.nmaps + 1
        mem := store (st.mem ++ [zeroRegion segment (phdrAt env file eh i).p_memsz]) segment
          (readAt file (phdrAt env file eh i).p_offset
            (min (phdrAt env file eh i).p_filesz (mappedLen (phdrAt env file eh i).p_memsz)))
        trace := st.trace ++
          [.lseek (phdrOffset env.sizeBits eh i) true, .read SIZEOF_PHDR SIZEOF_PHDR,
            .mmap (phdrAt env file eh i).p_memsz (some segment),
            .lseek (phdrAt env file eh i).p_offset true,
            .read (phdrAt env file eh i).p_filesz (phdrAt env file eh i).p_filesz]
        entry_seg :=
          if containsEntry eh.e_entry (phdrAt env file eh i).p_vaddr
              (phdrAt env file eh i).p_memsz then
            some (segment + entryOffset eh.e_entry (phdrAt env file eh i).p_vaddr)
          else st.entry_seg } := by
  obtain ⟨hs, hl⟩ := hr
  unfold phdrAt at hty hmap hseek hread ⊢
  simp [loopBody, hs, hl, hty, loadSegment, hmap, hseek, hread]

/-- A loop that is still running after `a` iterations continues with the
remaining ones from the state reached. -/
theorem phLoop_add (env : Env) (file : List Byte) (eh : Elf32_Ehdr) (a b : Nat) :
    ∀ (i : Nat) (st : St), (phLoop env file eh a i st).status = .running →
      phLoop env file eh (a + b) i st = phLoop env file eh b (i + a) (phLoop env file eh a i st) := by
  induction a with
  | zero => intro i st _; simp [phLoop]
  | succ a ih =>
    intro i st h
    have e1 : a + 1 + b = (a + b) + 1 := by omega
    rw [e1]
    simp only [phLoop] at h ⊢
    by_cases hs : (loopBody env file eh i st).status = .running
    · simp only [hs, if_true] at h ⊢
      rw [ih (i + 1) _ h, Nat.add_assoc, Nat.add_comm 1 a]
    · simp only [hs, if_false] at h

/-- One more iteration after `n` iterations that left the loop running. -/
theorem phLoop_succ (env : Env) (file : List Byte) (eh : Elf32_Ehdr) (n : Nat) (st : St)
    (h : (phLoop env file eh n 0 st).status = .running) :
    phLoop env file eh (n + 1) 0 st = loopBody env file eh n (phLoop env file eh n 0 st) := by
  rw [phLoop_add env file eh n 1 0 st h]
  simp only [phLoop, Nat.zero_add]
  split <;> rfl

theorem u8_lt (bs : List Byte) (i : Nat) : u8 bs i < 256 := by
  unfold u8; exact (bs.getD i 0).isLt

theorem u32_lt (bs : List Byte) (i : Nat) : u32 bs i < 2 ^ 32 := by
  have h0 := u8_lt bs i
  have h1 := u8_lt bs (i + 1)
  have h2 := u8_lt bs (i + 2)
  have h3 := u8_lt bs (i + 3)
  unfold u32
  norm_num
  omega

theorem e_entry_lt (file : List Byte) : (ehdrOf file).e_entry < 2 ^ 32 := by
  simp only [ehdrOf, parseEhdr]; exact u32_lt _ _

theorem p_memsz_lt (env : Env) (file : List Byte) (eh : Elf32_Ehdr) (i : Nat) :
    (phdrAt env file eh i).p_memsz < 2 ^ 32 := by
  simp only [phdrAt, parsePhdr]; exact u32_lt _ _

/-- When every one of the first `n` entries is processed without error, the
loop is still running after them, has called `mmap` once per `PT_LOAD` entry,
holds one live region per `PT_LOAD` entry, has called `munmap` never, and
`entry_seg` is the address computed from the last matching entry. -/
theorem loop_invariant (env : Env) (file : List Byte) (eh : Elf32_Ehdr) (st0 : St)
    (h0 : st0.status = .running) (hn0 : st0.nmaps = 0) (he0 : st0.entry_seg = none)
    (hm0 : st0.mem = []) :
    ∀ n, (∀ j, j < n → entryLoads env file eh j) →
      (phLoop env file eh n 0 st0).status = .running ∧
      (phLoop env file eh n 0 st0).nmaps = loadsBefore env file eh n ∧
      (phLoop env file eh n 0 st0).entry_seg = resolved env file eh n ∧
      (phLoop env file eh n 0 st0).mem.length = loadsBefore env file eh n ∧
      released (phLoop env file eh n 0 st0).trace = released st0.trace ∧
      reserved (phLoop env file eh n 0 st0).trace = reserved st0.trace + loadsBefore env file eh n ∧
      calls (phLoop env file eh n 0 st0).trace = calls st0.trace ∧
      (phLoop env file eh n 0 st0).fdValid = st0.fdValid ∧
      (phLoop env file eh n 0 st0).virtual_mem = st0.virtual_mem := by
  intro n
  induction n with
  | zero => intro _; simp [phLoop, loadsBefore, resolved, h0, hn0, he0, hm0]
  | succ n ih =>
    intro hall
    obtain ⟨hs, hn, he, hm, hrel, hres, hcal, hfd, hvm⟩ := ih (fun j hj => hall j (by omega))
    obtain ⟨hr, hl⟩ := hall n (by omega)
    rw [phLoop_succ env file eh n st0 hs]
    by_cases hty : (phdrAt env file eh n).p_type = PT_LOAD
    · obtain ⟨hsome, hseek, hread⟩ := hl hty
      rw [Option.isSome_iff_exists] at hsome
      obtain ⟨segment, hmap⟩ := hsome
      have hmap2 : env.mmap (phLoop env file eh n 0 st0).nmaps (phdrAt env file eh n).p_memsz =
          some segment := by rw [hn]; exact hmap
      rw [loopBody_load env file eh n _ hr hty segment hmap2 hseek hread]
      simp only [loadsBefore, resolved, hty, if_true, true_and, hmap, Option.map_some']
      refine ⟨hs, by rw [hn], ?_, ?_, ?_, ?_, ?_, hfd, hvm⟩
      · by_cases hc : containsEntry eh.e_entry (phdrAt env file eh n).p_vaddr
            (phdrAt env file eh n).p_memsz = true
        · simp [hc]
        · simp [hc, he]
      · simp [store, hm]
      · simpa [released, List.countP_append] using hrel
      · simp only [reserved, List.countP_append] at hres ⊢
        simp [List.countP_cons, hres]; omega
      · simpa [calls, List.countP_append] using hcal
    · rw [loopBody_skip env file eh n _ hr hty]
      simp only [loadsBefore, resolved, hty, if_false, false_and, Nat.add_zero]
      refine ⟨hs, hn, he, hm, ?_, ?_, ?_, hfd, hvm⟩
      · simpa [released, List.countP_append] using hrel
      · simpa [reserved, List.countP_append] using hres
      · simpa [calls, List.countP_append] using hcal

theorem entryOffset_eq (e v : Nat) (he : e < 2 ^ 32) (hve : v ≤ e) : entryOffset e v = e - v := by
  unfold entryOffset
  norm_num at he ⊢
  omega

theorem containsEntry_le (e v m : Nat) (h : containsEntry e v m = true) : v ≤ e := by
  simp only [containsEntry, Bool.and_eq_true, decide_eq_true_eq, ge_iff_le] at h
  exact h.1

/-- After a loop in which every entry was processed without error,
`entry_seg` is computed from the last matching entry. -/
theorem resolved_last (env : Env) (file : List Byte) (eh : Elf32_Ehdr) (k base : Nat)
    (hmatch : isMatch env file eh k)
    (hbase : env.mmap (loadsBefore env file eh k) (phdrAt env file eh k).p_memsz = some base) :
    ∀ n, k < n → (∀ j, k < j → j < n → ¬ isMatch env file eh j) →
      resolved env file eh n =
        some (base + entryOffset eh.e_entry (phdrAt env file eh k).p_vaddr) := by
  intro n
  induction n with
  | zero => intro h; omega
  | succ n ih =>
    intro hk hlast
    by_cases hkn : k = n
    · subst hkn
      have hm : (phdrAt env file eh k).p_type = PT_LOAD ∧
          containsEntry eh.e_entry (phdrAt env file eh k).p_vaddr
            (phdrAt env file eh k).p_memsz = true := hmatch
      simp only [resolved, hm, and_self, if_true, hbase, Option.map_some']
    · have hn : ¬ isMatch env file eh n := hlast n (by omega) (by omega)
      unfold isMatch at hn
      simp only [resolved, hn, if_false]
      exact ih (by omega) (fun j h1 h2 => hlast j h1 (by omega))

/-- After a loop in which every entry was processed without error and none
matched, `entry_seg` is still `NULL`. -/
theorem resolved_none (env : Env) (file : List Byte) (eh : Elf32_Ehdr) :
    ∀ n, (∀ j, j < n → ¬ isMatch env file eh j) → resolved env file eh n = none := by
  intro n
  induction n with
  | zero => intro _; rfl
  | succ n ih =>
    intro hall
    have hn : ¬ isMatch env file eh n := hall n (by omega)
    unfold isMatch at hn
    simp only [resolved, hn, if_false]
    exact ih (fun j hj => hall j (by omega))

/-- What `launch` does when `entry_seg` is not `NULL`. -/
theorem launch_some (env : Env) (st : St) (addr : Nat) (h : st.entry_seg = some addr) :
    (launch env st).entry_seg = some addr ∧ Event.call addr ∈ (launch env st).trace ∧
      calls (launch env st).trace = calls st.trace + 1 ∧ (launch env st).mem = st.mem ∧
      released (launch env st).trace = released st.trace ∧
      reserved (launch env st).trace = reserved st.trace ∧
      (launch env st).fdValid = st.fdValid ∧ (launch env st).virtual_mem = st.virtual_mem ∧
      (launch env st).status =
        (match env.start addr with | none => .noReturn | some r => .returned r) := by
  unfold launch
  rw [h]
  cases hst : env.start addr <;>
    simp [hst, calls, released, reserved, List.countP_append, List.countP_cons]

/-- What `launch` does when `entry_seg` is `NULL`. -/
theorem launch_none (env : Env) (st : St) (h : st.entry_seg = none) :
    (launch env st).status = .failed .cantFindEntryPoint ∧
      calls (launch env st).trace = calls st.trace ∧ (launch env st).mem = st.mem ∧
      released (launch env st).trace = released st.trace ∧
      reserved (launch env st).trace = reserved st.trace ∧
      (launch env st).fdValid = st.fdValid ∧ (launch env st).virtual_mem = st.virtual_mem := by
  unfold launch
  rw [h]
  simp [calls, released, reserved, List.countP_append, List.countP_cons]

/-- Last match wins, for the test the loader makes: for every image with a
valid header whose entries are all processed without error, the address the
loader resolves and calls is `local_base + (e_entry - p_vaddr)` of the entry
`k` that is latest in the program-header table among the `PT_LOAD` entries
passing the test of lines 122-123 (in particular when an earlier entry passes
it too); exactly one call is made. -/
theorem last_match_wins (env : Env) (file : List Byte) (hfile : env.file = some file)
    (hv : validHeader file)
    (hall : ∀ j, j < (ehdrOf file).e_phnum → entryLoads env file (ehdrOf file) j)
    (k : Nat) (hk : k < (ehdrOf file).e_phnum) (hmatch : isMatch env file (ehdrOf file) k)
    (hlast : ∀ j, j < (ehdrOf file).e_phnum → k < j → ¬ isMatch env file (ehdrOf file) j)
    (base : Nat)
    (hbase : env.mmap (loadsBefore env file (ehdrOf file) k)
      (phdrAt env file (ehdrOf file) k).p_memsz = some base) :
    (load_and_run_elf env St.init).entry_seg =
        some (base + ((ehdrOf file).e_entry - (phdrAt env file (ehdrOf file) k).p_vaddr)) ∧
      Event.call (base + ((ehdrOf file).e_entry - (phdrAt env file (ehdrOf file) k).p_vaddr)) ∈
        (load_and_run_elf env St.init).trace ∧
      calls (load_and_run_elf env St.init).trace = 1 := by
  obtain ⟨hs, _, he, _, _, _, hcal, _, _⟩ :=
    loop_invariant env file (ehdrOf file) afterHeader rfl rfl rfl rfl (ehdrOf file).e_phnum hall
  have hoff := entryOffset_eq (ehdrOf file).e_entry (phdrAt env file (ehdrOf file) k).p_vaddr
    (e_entry_lt file) (containsEntry_le _ _ _ hmatch.2)
  rw [resolved_last env file (ehdrOf file) k base hmatch hbase _ hk
    (fun j h1 h2 => hlast j h2 h1), hoff] at he
  obtain ⟨h1, h2, h3, _⟩ := launch_some env _ _ he
  rw [run_valid env file hfile hv, if_pos hs]
  refine ⟨h1, h2, ?_⟩
  rw [h3, hcal]
  rfl

theorem last_match_wins_witness :
    (load_and_run_elf (okEnv twoMatches) St.init).entry_seg =
        some (8192 + ((ehdrOf twoMatches).e_entry -
          (phdrAt (okEnv twoMatches) twoMatches (ehdrOf twoMatches) 1).p_vaddr)) ∧
      Event.call (8192 + ((ehdrOf twoMatches).e_entry -
          (phdrAt (okEnv twoMatches) twoMatches (ehdrOf twoMatches) 1).p_vaddr)) ∈
        (load_and_run_elf (okEnv twoMatches) St.init).trace ∧
      calls (load_and_run_elf (okEnv twoMatches) St.init).trace = 1 :=
  last_match_wins (okEnv twoMatches) twoMatches rfl (by decide) (by decide) 1 (by decide)
    (by decide) (by decide) 8192 (by decide)

/-- C5, evaluated where it fails: in `wrapLater` both `PT_LOAD` segments
contain the entry point `0xFFFFFFF4` (the first is `[0xFFFFFFE0, 0xFFFFFFF8)`,
the second `[0xFFFFFFF0, 2^32)`), the first is mapped at 4096 and the second
at 8192, so the later segment gives the address `8192 + 4`; the loader
resolves and calls `4096 + 0x14`, the address in the earlier segment, because
the test of lines 122-123 is false for the later one. -/
theorem later_match_lost_at_top :
    validHeader wrapLater ∧ (ehdrOf wrapLater).e_phnum = 2 ∧
      (ehdrOf wrapLater).e_entry = 0xFFFFFFF4 ∧
      ((phdrAt (okEnv wrapLater) wrapLater (ehdrOf wrapLater) 0).p_type = PT_LOAD ∧
        (phdrAt (okEnv wrapLater) wrapLater (ehdrOf wrapLater) 0).p_vaddr ≤
          (ehdrOf wrapLater).e_entry ∧
        (ehdrOf wrapLater).e_entry <
          (phdrAt (okEnv wrapLater) wrapLater (ehdrOf wrapLater) 0).p_vaddr +
            (phdrAt (okEnv wrapLater) wrapLater (ehdrOf wrapLater) 0).p_memsz) ∧
      ((phdrAt (okEnv wrapLater) wrapLater (ehdrOf wrapLater) 1).p_type = PT_LOAD ∧
        (phdrAt (okEnv wrapLater) wrapLater (ehdrOf wrapLater) 1).p_vaddr ≤
          (ehdrOf wrapLater).e_entry ∧
        (ehdrOf wrapLater).e_entry <
          (phdrAt (okEnv wrapLater) wrapLater (ehdrOf wrapLater) 1).p_vaddr +
            (phdrAt (okEnv wrapLater) wrapLater (ehdrOf wrapLater) 1).p_memsz) ∧
      (load_and_run_elf (okEnv wrapLater) St.init).trace =
        [.openFile true, .read 52 52, .lseek 52 true, .read 32 32, .mmap 24 (some 4096),
          .lseek 116 true, .read 24 24, .lseek 84 true, .read 32 32, .mmap 16 (some 8192),
          .lseek 140 true, .read 8 8, .call 4116, .stdout 42] ∧
      (load_and_run_elf (okEnv wrapLater) St.init).entry_seg =
        some (4096 + ((ehdrOf wrapLater).e_entry -
          (phdrAt (okEnv wrapLater) wrapLater (ehdrOf wrapLater) 0).p_vaddr)) ∧
      (load_and_run_elf (okEnv wrapLater) St.init).entry_seg ≠
        some (8192 + ((ehdrOf wrapLater).e_entry -
          (phdrAt (okEnv wrapLater) wrapLater (ehdrOf wrapLater) 1).p_vaddr)) := by
  decide

/-- The regression test of the specification: in `twoMatches` the first
segment is mapped at 4096 and the second at 8192, both contain the entry
point, and the call goes to `8192 + 2`, the address in the second one. -/
theorem two_matches_run :
    isMatch (okEnv twoMatches) twoMatches (ehdrOf twoMatches) 0 ∧
      isMatch (okEnv twoMatches) twoMatches (ehdrOf twoMatches) 1 ∧
      (load_and_run_elf (okEnv twoMatches) St.init).trace =
        [.openFile true, .read 52 52, .lseek 52 true, .read 32 32, .mmap 8 (some 4096),
          .lseek 116 true, .read 8 8, .lseek 84 true, .read 32 32, .mmap 8 (some 8192),
          .lseek 124 true, .read 8 8, .call 8194, .stdout 42] := by
  decide

/-! ## The contents of a loaded segment (lines 91-119) -/

/-- The text-and-data image, run: both segments stay mapped with the bytes of
the file followed by zero bytes, and the call goes into the first one. -/
theorem text_data_run :
    (load_and_run_elf (okEnv textData) St.init).mem =
        [{ base := 4096, len := 8, bytes := [0x90, 0xb8, 0x2a, 0, 0, 0, 0xc3, 0] },
         { base := 8192, len := 6, bytes := [0x11, 0x22, 0, 0, 0, 0] }] ∧
      (load_and_run_elf (okEnv textData) St.init).trace =
        [.openFile true, .read 52 52, .lseek 52 true, .read 32 32, .mmap 8 (some 4096),
          .lseek 116 true, .read 7 7, .lseek 84 true, .read 32 32, .mmap 6 (some 8192),
          .lseek 123 true, .read 2 2, .call 4097, .stdout 42] := by
  decide

/-- The one-segment image, run: the region mapped at 4096 holds the seven file
bytes followed by one zero byte, and the call goes to `4096 + 1`. -/
theorem one_segment_run :
    (load_and_run_elf (okEnv oneSegment) St.init).mem =
        [{ base := 4096, len := 8, bytes := [0x90, 0xb8, 0x2a, 0, 0, 0, 0xc3, 0] }] ∧
      (load_and_run_elf (okEnv oneSegment) St.init).trace =
        [.openFile true, .read 52 52, .lseek 52 true, .read 32 32, .mmap 8 (some 4096),
          .lseek 84 true, .read 7 7, .call 4097, .stdout 42] ∧
      (load_and_run_elf (okEnv oneSegment) St.init).status = .returned 42 := by
  decide

/-! ## Where the program headers are read (lines 75-89) -/

theorem phdrOffset_eq (w : Nat) (eh : Elf32_Ehdr) (i : Nat) :
    phdrOffset w eh i = (eh.e_phoff + 32 * i) % 2 ^ w := by
  unfold phdrOffset SIZEOF_PHDR
  rw [Nat.add_mod_mod, Nat.mul_comm]

theorem loadSegment_trace (env : Env) (file : List Byte) (e : Nat) (ph : Elf32_Phdr) (st : St) :
    ∃ t, (loadSegment env file e ph st).trace = st.trace ++ t := by
  unfold loadSegment
  split
  · exact ⟨_, rfl⟩
  · dsimp only
    split_ifs <;> exact ⟨_, rfl⟩

/-- Every iteration starts with the `lseek` to `phdrOffset`, and when that
succeeds the next call is the `read` of 32 bytes at that offset. -/
theorem loopBody_trace (env : Env) (file : List Byte) (eh : Elf32_Ehdr) (i : Nat) (st : St) :
    ∃ rest, (loopBody env file eh i st).trace =
        st.trace ++ Event.lseek (phdrOffset env.sizeBits eh i)
          (env.lseek (phdrOffset env.sizeBits eh i)) :: rest ∧
      (env.lseek (phdrOffset env.sizeBits eh i) = true →
        ∃ rest2, rest = Event.read SIZEOF_PHDR
          (readAt file (phdrOffset env.sizeBits eh i) SIZEOF_PHDR).length :: rest2) := by
  unfold loopBody
  dsimp only
  by_cases hs : env.lseek (phdrOffset env.sizeBits eh i) = false
  · rw [if_pos hs, hs]
    exact ⟨_, rfl, fun h => by simp at h⟩
  · rw [if_neg hs]
    have hs1 : env.lseek (phdrOffset env.sizeBits eh i) = true := by simpa using hs
    rw [hs1]
    by_cases hl : (readAt file (phdrOffset env.sizeBits eh i) SIZEOF_PHDR).length ≠ SIZEOF_PHDR
    · rw [if_pos hl]
      exact ⟨_, rfl, fun _ => ⟨_, rfl⟩⟩
    · rw [if_neg hl]
      by_cases hty : (parsePhdr (readAt file (phdrOffset env.sizeBits eh i) SIZEOF_PHDR)).p_type =
          PT_LOAD
      · rw [if_pos hty]
        obtain ⟨t, ht⟩ := loadSegment_trace env file eh.e_entry
          (parsePhdr (readAt file (phdrOffset env.sizeBits eh i) SIZEOF_PHDR))
          { st with trace := st.trace ++ [.lseek (phdrOffset env.sizeBits eh i) true,
              .read SIZEOF_PHDR (readAt file (phdrOffset env.sizeBits eh i) SIZEOF_PHDR).length] }
        rw [ht]
        exact ⟨Event.read SIZEOF_PHDR
          (readAt file (phdrOffset env.sizeBits eh i) SIZEOF_PHDR).length :: t, by simp,
          fun _ => ⟨t, rfl⟩⟩
      · rw [if_neg hty]
        exact ⟨[Event.read SIZEOF_PHDR
          (readAt file (phdrOffset env.sizeBits eh i) SIZEOF_PHDR).length], by simp,
          fun _ => ⟨[], rfl⟩⟩

theorem phLoop_trace (env : Env) (file : List Byte) (eh : Elf32_Ehdr) :
    ∀ (n i : Nat) (st : St), ∃ t, (phLoop env file eh n i st).trace = st.trace ++ t := by
  intro n
  induction n with
  | zero => intro i st; exact ⟨[], by simp [phLoop]⟩
  | succ n ih =>
    intro i st
    obtain ⟨r, hr, _⟩ := loopBody_trace env file eh i st
    simp only [phLoop]
    split_ifs
    · obtain ⟨t, ht⟩ := ih (i + 1) (loopBody env file eh i st)
      rw [ht, hr]
      exact ⟨_, by rw [List.append_assoc]⟩
    · exact ⟨_, hr⟩

theorem launch_trace (env : Env) (st : St) : ∃ t, (launch env st).trace = st.trace ++ t := by
  unfold launch
  split
  · exact ⟨_, rfl⟩
  · split <;> exact ⟨_, rfl⟩

/-- C7, evaluated where it fails: in `wideEntries` the header records
`e_phentsize = 40`, `e_phoff = 52` and two entries, so entry 1 lies at file
offset `52 + 1 * 40 = 92`; the loader seeks to 52 and then to 84. -/
theorem entry_size_ignored :
    validHeader wideEntries ∧ (ehdrOf wideEntries).e_phnum = 2 ∧
      (ehdrOf wideEntries).e_phentsize = 40 ∧
      (ehdrOf wideEntries).e_phoff + 1 * (ehdrOf wideEntries).e_phentsize = 92 ∧
      seeks (load_and_run_elf (okEnv wideEntries) St.init).trace = [52, 84] := by
  decide

/-- Where the loop reads: for every valid header and every index
`i < e_phnum` that the loop reaches, iteration `i` reads from file offset
`(e_phoff + 32 * i) mod 2^w`, with `32 = sizeof(Elf32_Phdr)` and `w` the
width of `size_t`, whatever `e_phentsize` the header records: the first call
of iteration `i` is the `lseek` to that offset and, when it succeeds, the
next call is the `read` of 32 bytes there. That is the offset of entry `i`
exactly when `e_phentsize` is 32. -/
theorem program_header_offset (env : Env) (file : List Byte) (hfile : env.file = some file)
    (hv : validHeader file) (i : Nat) (hi : i < (ehdrOf file).e_phnum)
    (hrun : (phLoop env file (ehdrOf file) i 0 afterHeader).status = .running) :
    ∃ rest, (load_and_run_elf env St.init).trace =
        (phLoop env file (ehdrOf file) i 0 afterHeader).trace ++
          Event.lseek (((ehdrOf file).e_phoff + 32 * i) % 2 ^ env.sizeBits)
            (env.lseek (((ehdrOf file).e_phoff + 32 * i) % 2 ^ env.sizeBits)) :: rest ∧
      (env.lseek (((ehdrOf file).e_phoff + 32 * i) % 2 ^ env.sizeBits) = true →
        ∃ rest2, rest = Event.read SIZEOF_PHDR
          (readAt file (((ehdrOf file).e_phoff + 32 * i) % 2 ^ env.sizeBits)
            SIZEOF_PHDR).length :: rest2) := by
  rw [← phdrOffset_eq]
  obtain ⟨r, hr, hnext⟩ := loopBody_trace env file (ehdrOf file) i
    (phLoop env file (ehdrOf file) i 0 afterHeader)
  rw [← phLoop_succ env file (ehdrOf file) i afterHeader hrun] at hr
  -- the whole loop extends the trace reached after iteration `i`
  have hloop : ∃ t, (phLoop env file (ehdrOf file) (ehdrOf file).e_phnum 0 afterHeader).trace =
      (phLoop env file (ehdrOf file) (i + 1) 0 afterHeader).trace ++ t := by
    have hn : (ehdrOf file).e_phnum = i + ((ehdrOf file).e_phnum - i - 1 + 1) := by omega
    rw [hn, phLoop_add env file (ehdrOf file) i _ 0 afterHeader hrun]
    rw [phLoop_succ env file (ehdrOf file) i afterHeader hrun]
    simp only [phLoop, Nat.zero_add]
    split_ifs
    · exact phLoop_trace env file (ehdrOf file) _ _ _
    · exact ⟨[], by simp⟩
  obtain ⟨t, ht⟩ := hloop
  rw [run_valid env file hfile hv]
  split_ifs
  · obtain ⟨t2, ht2⟩ := launch_trace env
      (phLoop env file (ehdrOf file) (ehdrOf file).e_phnum 0 afterHeader)
    rw [ht2, ht, hr]
    refine ⟨r ++ t ++ t2, by simp, fun h => ?_⟩
    obtain ⟨r2, hr2⟩ := hnext h
    exact ⟨r2 ++ t ++ t2, by rw [hr2]; simp⟩
  · rw [ht, hr]
    refine ⟨r ++ t, by simp, fun h => ?_⟩
    obtain ⟨r2, hr2⟩ := hnext h
    exact ⟨r2 ++ t, by rw [hr2]; simp⟩

theorem program_header_offset_witness :
    ∃ rest, (load_and_run_elf (okEnv wideEntries) St.init).trace =
        (phLoop (okEnv wideEntries) wideEntries (ehdrOf wideEntries) 1 0 afterHeader).trace ++
          Event.lseek (((ehdrOf wideEntries).e_phoff + 32 * 1) % 2 ^ (okEnv wideEntries).sizeBits)
            ((okEnv wideEntries).lseek
              (((ehdrOf wideEntries).e_phoff + 32 * 1) % 2 ^ (okEnv wideEntries).sizeBits)) ::
            rest ∧
      ((okEnv wideEntries).lseek
          (((ehdrOf wideEntries).e_phoff + 32 * 1) % 2 ^ (okEnv wideEntries).sizeBits) = true →
        ∃ rest2, rest = Event.read SIZEOF_PHDR
          (readAt wideEntries
            (((ehdrOf wideEntries).e_phoff + 32 * 1) % 2 ^ (okEnv wideEntries).sizeBits)
            SIZEOF_PHDR).length :: rest2) :=
  program_header_offset (okEnv wideEntries) wideEntries rfl (by decide) 1 (by decide)
    (by decide)

/-! ## What is released (lines 14-21 and every exit of `load_and_run_elf`) -/

theorem loadSegment_virtual_mem (env : Env) (file : List Byte) (e : Nat) (ph : Elf32_Phdr)
    (st : St) : (loadSegment env file e ph st).virtual_mem = st.virtual_mem := by
  unfold loadSegment
  split
  · rfl
  · dsimp only
    split_ifs <;> rfl

theorem loopBody_virtual_mem (env : Env) (file : List Byte) (eh : Elf32_Ehdr) (i : Nat)
    (st : St) : (loopBody env file eh i st).virtual_mem = st.virtual_mem := by
  unfold loopBody
  dsimp only
  split_ifs
  · rfl
  · rfl
  · rw [loadSegment_virtual_mem]
  · rfl

theorem phLoop_virtual_mem (env : Env) (file : List Byte) (eh : Elf32_Ehdr) :
    ∀ (n i : Nat) (st : St), (phLoop env file eh n i st).virtual_mem = st.virtual_mem := by
  intro n
  induction n with
  | zero => intro i st; rfl
  | succ n ih =>
    intro i st
    simp only [phLoop]
    split_ifs
    · rw [ih, loopBody_virtual_mem]
    · rw [loopBody_virtual_mem]

theorem launch_virtual_mem (env : Env) (st : St) :
    (launch env st).virtual_mem = st.virtual_mem := by
  unfold launch
  split
  · rfl
  · split <;> rfl

/-- No path through `load_and_run_elf` assigns the global `virtual_mem`: it
is still `NULL` when `loader_cleanup` runs. -/
theorem virtual_mem_never_set (env : Env) :
    (load_and_run_elf env St.init).virtual_mem = none := by
  unfold load_and_run_elf
  split
  · rfl
  · dsimp only
    split_ifs
    · rfl
    · rfl
    · rfl
    · rfl
    · rw [launch_virtual_mem, phLoop_virtual_mem]; rfl
    · rw [phLoop_virtual_mem]; rfl

/-- With `virtual_mem = NULL`, `loader_cleanup` unmaps nothing. -/
theorem loader_cleanup_none (st : St) (h : st.virtual_mem = none) :
    (loader_cleanup st).mem = st.mem ∧
      released (loader_cleanup st).trace = released st.trace ∧
      reserved (loader_cleanup st).trace = reserved st.trace ∧
      calls (loader_cleanup st).trace = calls st.trace ∧
      (loader_cleanup st).status = st.status := by
  unfold loader_cleanup
  rw [h]
  dsimp only
  split_ifs <;> simp [released, reserved, calls, List.countP_append, List.countP_cons]

/-- On every run, whatever the file and the environment, `loader_cleanup`
releases no region: the regions live when `load_and_run_elf` returns are
still live, and the number of `munmap` calls is unchanged, when `main` ends. -/
theorem cleanup_releases_nothing (env : Env) :
    (main env).mem = (load_and_run_elf env St.init).mem ∧
      released (main env).trace = released (load_and_run_elf env St.init).trace ∧
      reserved (main env).trace = reserved (load_and_run_elf env St.init).trace := by
  unfold main
  dsimp only
  split_ifs
  · exact ⟨rfl, rfl, rfl⟩
  · obtain ⟨h1, h2, h3, _⟩ := loader_cleanup_none _ (virtual_mem_never_set env)
    exact ⟨h1, h2, h3⟩

/-- For every image with a valid header whose entries are all processed
without error, every region reserved is still mapped when `main` ends: one
per `PT_LOAD` entry, and `munmap` is never called. -/
theorem loaded_regions_never_released (env : Env) (file : List Byte)
    (hfile : env.file = some file) (hv : validHeader file)
    (hall : ∀ j, j < (ehdrOf file).e_phnum → entryLoads env file (ehdrOf file) j) :
    (main env).mem.length = loadsBefore env file (ehdrOf file) (ehdrOf file).e_phnum ∧
      reserved (main env).trace = loadsBefore env file (ehdrOf file) (ehdrOf file).e_phnum ∧
      released (main env).trace = 0 := by
  obtain ⟨hs, _, _, hm, hrel, hres, _, _, _⟩ :=
    loop_invariant env file (ehdrOf file) afterHeader rfl rfl rfl rfl (ehdrOf file).e_phnum hall
  obtain ⟨c1, c2, c3⟩ := cleanup_releases_nothing env
  rw [c1, c2, c3, run_valid env file hfile hv, if_pos hs]
  have hres0 : reserved afterHeader.trace = 0 := by decide
  have hrel0 : released afterHeader.trace = 0 := by decide
  cases hentry : (phLoop env file (ehdrOf file) (ehdrOf file).e_phnum 0 afterHeader).entry_seg with
  | none =>
    obtain ⟨_, _, l1, l2, l3, _⟩ := launch_none env _ hentry
    rw [l1, l2, l3, hm, hrel, hres, hres0, hrel0]
    simp
  | some addr =>
    obtain ⟨_, _, _, l1, l2, l3, _⟩ := launch_some env _ addr hentry
    rw [l1, l2, l3, hm, hrel, hres, hres0, hrel0]
    simp

/-- For every image with a valid header whose entries are all processed
without error and none of which passes the containment test, the loader
fails with the entry-point diagnostic and calls no code of the file. -/
theorem no_match_fails (env : Env) (file : List Byte)
    (hfile : env.file = some file) (hv : validHeader file)
    (hall : ∀ j, j < (ehdrOf file).e_phnum → entryLoads env file (ehdrOf file) j)
    (hnone : ∀ j, j < (ehdrOf file).e_phnum → ¬ isMatch env file (ehdrOf file) j) :
    (load_and_run_elf env St.init).status = .failed .cantFindEntryPoint ∧
      calls (load_and_run_elf env St.init).trace = 0 := by
  obtain ⟨hs, _, he, _, _, _, hcal, _, _⟩ :=
    loop_invariant env file (ehdrOf file) afterHeader rfl rfl rfl rfl (ehdrOf file).e_phnum hall
  rw [resolved_none env file (ehdrOf file) _ hnone] at he
  obtain ⟨l1, l2, _⟩ := launch_none env _ he
  rw [run_valid env file hfile hv, if_pos hs, l1, l2, hcal]
  exact ⟨rfl, by decide⟩

/-- C6, evaluated where it fails: `entryOutside` has a valid header and one
`PT_LOAD` segment that does not contain the entry point. The loader fails with
the entry-point diagnostic and calls no code, but the region it reserved with
`mmap` is never released: no `munmap` is called and the mapping survives
`loader_cleanup`. -/
theorem entry_not_found_leaks_region :
    validHeader entryOutside ∧
      ¬ isMatch (okEnv entryOutside) entryOutside (ehdrOf entryOutside) 0 ∧
      (main (okEnv entryOutside)).status = .failed .cantFindEntryPoint ∧
      calls (main (okEnv entryOutside)).trace = 0 ∧
      (main (okEnv entryOutside)).trace =
        [.openFile true, .read 52 52, .lseek 52 true, .read 32 32, .mmap 8 (some 4096),
          .lseek 84 true, .read 4 4, .stderr .cantFindEntryPoint, .close, .close] ∧
      reserved (main (okEnv entryOutside)).trace = 1 ∧
      released (main (okEnv entryOutside)).trace = 0 ∧
      (main (okEnv entryOutside)).mem =
        [{ base := 4096, len := 8, bytes := [0xb8, 0x2a, 0xc3, 0x90, 0, 0, 0, 0] }] := by
  decide

/-- C8, evaluated where it fails: after a successful run on `oneSegment`
(the loaded code, `mov eax, 42; ret`, returns 42) one region has been
reserved and none released when `main` ends; and when the second `mmap` fails
on `twoMatches`, the region of the first segment likewise stays mapped. -/
theorem regions_survive_main :
    ((main (okEnv oneSegment)).status = .returned 42 ∧
      (main (okEnv oneSegment)).trace =
        [.openFile true, .read 52 52, .lseek 52 true, .read 32 32, .mmap 8 (some 4096),
          .lseek 84 true, .read 7 7, .call 4097, .stdout 42, .close] ∧
      reserved (main (okEnv oneSegment)).trace = 1 ∧
      released (main (okEnv oneSegment)).trace = 0 ∧
      (main (okEnv oneSegment)).mem.length = 1) ∧
    ((main (secondMmapFails twoMatches)).status = .failed .cantAllocate ∧
      reserved (main (secondMmapFails twoMatches)).trace = 1 ∧
      released (main (secondMmapFails twoMatches)).trace = 0 ∧
      (main (secondMmapFails twoMatches)).mem.length = 1) := by
  decide

end Loader
